import Mathlib

/-!
Shallow embedding of `src/api/extractor.py` (class `Extractor`) and proofs
of the specification claims about it.

Python dynamic values are modelled by `PyVal`; the Azure document
intelligence `DocumentField` objects by `DIField`; external effects
(the database inserts of `update_database`, the SAS-token generation and
the analysis service of `extract`) by explicit call traces and an
environment record supplying what the external services return.
-/

/-- A Python value as it flows through this code: `None`, a `str`, a
number, a `list` or a `dict`. -/
inductive PyVal where
  | vnone : PyVal
  | vstr : String → PyVal
  | vint : Int → PyVal
  | vlist : List PyVal → PyVal
  | vdict : List (String × PyVal) → PyVal

/-- Python truthiness: `None`, `""`, `0`, `[]` and `{}` are falsy. -/
def truthy : PyVal → Bool
  | .vnone => false
  | .vstr s => !(s = "")
  | .vint n => !(n = 0)
  | .vlist xs => !xs.isEmpty
  | .vdict xs => !xs.isEmpty

/-- Python `a or b`: `a` if `a` is truthy, else `b`. -/
def pyOr (a b : PyVal) : PyVal := if truthy a then a else b

/-- `d.get(k)` on an association list standing for a Python dict:
the first binding of `k`, if any. -/
def dictGet (kvs : List (String × PyVal)) (k : String) : Option PyVal :=
  (kvs.find? (fun p => p.1 = k)).map (fun p => p.2)

/-- Python `str(v)` (elements of containers rendered with the same
function; the exact rendering of containers is irrelevant to the code,
which only ever applies `str` to scalars it then stores opaquely). -/
def strOfPy : PyVal → String
  | .vnone => "None"
  | .vstr s => s
  | .vint n => toString n
  | .vlist xs => "[" ++ String.intercalate ", " (xs.attach.map (fun x => strOfPy x.1)) ++ "]"
  | .vdict xs =>
      "\x7b" ++ String.intercalate ", "
        (xs.attach.map (fun x => x.1.1 ++ ": " ++ strOfPy x.1.2)) ++ "\x7d"
decreasing_by
  · have := List.sizeOf_lt_of_mem x.2
    simp only [PyVal.vlist.sizeOf_spec]
    omega
  · have h1 := List.sizeOf_lt_of_mem x.2
    have h2 : sizeOf x.1.2 < sizeOf x.1 := by
      obtain ⟨a, b⟩ := x.1
      simp only [Prod.mk.sizeOf_spec]
      omega
    simp only [PyVal.vdict.sizeOf_spec]
    omega

/-- Exceptions this code can raise (all subclasses of `Exception`). -/
inductive PyErr where
  | keyError : String → PyErr
  | attributeError : PyErr
  | insertError : PyErr
deriving DecidableEq

/-- One row handed to `database.post2postgres_extract`
(extractor.py lines 39-49): the keyword arguments of the call. -/
structure Row where
  client_id : String
  doc_url : String
  doc_name : String
  doc_status : String
  doc_type : String
  field_name : String
  field_value : PyVal
  confidence : PyVal
  access_id : String

/-- Lines 36-37: `if isinstance(field_value, list): field_value =
json.dumps(field_value.__dict__)`.  A `list` has no `__dict__`, so taking
this branch raises `AttributeError`; any other value passes through. -/
def convertCustom : PyVal → Except PyErr PyVal
  | .vlist _ => .error .attributeError
  | v => .ok v

/-- Lines 27-49 for a single `(field_name, field_data)` pair: compute the
`field_value` / `confidence` arguments (raising `KeyError` where Python
subscripting would) and build the row passed to `post2postgres_extract`. -/
def mkRow (client_id blob_sas_url doc_name form_type access_id : String)
    (field_name : String) (field_data : PyVal) : Except PyErr Row := do
  let (field_value, confidence) ←
    match field_data with
    | .vdict kvs =>
      match dictGet kvs "value" with
      | Option.none => Except.error (PyErr.keyError "value")
      | Option.some v =>
        match dictGet kvs "confidence" with
        | Option.none => Except.error (PyErr.keyError "confidence")
        | Option.some c => Except.ok (PyVal.vstr (strOfPy v), c)
    | d => Except.ok (PyVal.vstr (strOfPy d), PyVal.vnone)
  let field_value ← convertCustom field_value
  return { client_id := client_id, doc_url := blob_sas_url, doc_name := doc_name,
           doc_status := "extracted", doc_type := form_type,
           field_name := field_name, field_value := field_value,
           confidence := confidence, access_id := access_id }

/-- The external database: which insert calls succeed.  A row whose
`ok` is `false` raises when awaited. -/
structure InsertEnv where
  ok : Row → Bool

/-- The inner `for field_name, field_data in extracted_value.items()` loop:
rows inserted so far and the first exception, if one was raised.  An
exception aborts the loop (it propagates to the `except` on line 51). -/
def tryFields (ienv : InsertEnv) (c u dn ft a : String) :
    List (String × PyVal) → List Row × Option PyErr
  | [] => ([], Option.none)
  | (n, d) :: rest =>
    match mkRow c u dn ft a n d with
    | .error e => ([], Option.some e)
    | .ok row =>
      if ienv.ok row then
        let (rs, e) := tryFields ienv c u dn ft a rest
        (row :: rs, e)
      else ([], Option.some PyErr.insertError)

/-- The outer `for extracted_value in extracted_values` loop. -/
def tryAll (ienv : InsertEnv) (c u dn ft a : String) :
    List (List (String × PyVal)) → List Row × Option PyErr
  | [] => ([], Option.none)
  | ev :: rest =>
    match tryFields ienv c u dn ft a ev with
    | (rs, Option.some e) => (rs, Option.some e)
    | (rs, Option.none) =>
      let (rs2, e2) := tryAll ienv c u dn ft a rest
      (rs ++ rs2, e2)

/-- Observable outcome of one `update_database` call. -/
structure DBResult where
  inserted : List Row
  caught : Bool
  closed : Bool
  propagated : Bool

/-- The two SDK client objects held by an `Extractor` (only the fields
this code reads). -/
structure BlobServiceClient where
  account_name : String
deriving DecidableEq

structure BlobContainerClient where
  container_name : String
deriving DecidableEq

/-- `Extractor.__init__` stores exactly these two clients. -/
structure Extractor where
  blob_service_client : BlobServiceClient
  blob_container_client : BlobContainerClient
deriving DecidableEq

/-- `Extractor.update_database` (lines 23-54): run the insert loop inside
`try`; `except Exception` catches any exception and only logs it;
`finally` closes the database.  Returns the post-call `self` (Python
methods may mutate `self`; this one does not) and the effect trace. -/
def Extractor.update_database (self : Extractor) (ienv : InsertEnv)
    (client_id blob_sas_url doc_name form_type : String)
    (extracted_values : List (List (String × PyVal))) (access_id : String) :
    Extractor × DBResult :=
  let (rows, exc) := tryAll ienv client_id blob_sas_url doc_name form_type access_id extracted_values
  (self, { inserted := rows, caught := exc.isSome, closed := true, propagated := false })

/-! ## The document model consumed by `Extractor.extract` -/

/-- The `AddressValue` object returned by the service: the attributes
`extract_address_values` reads (each may be `None`). -/
structure AddressValue where
  house_number : Option String
  road : Option String
  city : Option String
  state : Option String
  postal_code : Option String

/-- A `DocumentField` of the analysis response: the keys this code reads
with `.get(...)` and the `.confidence` attribute.  `valueObject` maps
sub-field names to fields; `valueArray` is a list of fields. -/
inductive DIField where
  | mk : (valueString : Option String) → (valueNumber : Option Int) →
      (value : Option PyVal) → (confidence : PyVal) →
      (valueObject : Option (List (String × DIField))) →
      (valueArray : Option (List DIField)) →
      (valueAddress : Option AddressValue) → DIField

def DIField.valueString : DIField → Option String
  | .mk vs _ _ _ _ _ _ => vs

def DIField.valueNumber : DIField → Option Int
  | .mk _ vn _ _ _ _ _ => vn

def DIField.value : DIField → Option PyVal
  | .mk _ _ v _ _ _ _ => v

def DIField.confidence : DIField → PyVal
  | .mk _ _ _ c _ _ _ => c

def DIField.valueObject : DIField → Option (List (String × DIField))
  | .mk _ _ _ _ vo _ _ => vo

def DIField.valueArray : DIField → Option (List DIField)
  | .mk _ _ _ _ _ va _ => va

def DIField.valueAddress : DIField → Option AddressValue
  | .mk _ _ _ _ _ _ va => va

/-- One document of `result.documents`: its `.fields.items()`. -/
structure Document where
  fields : List (String × DIField)

/-- `field.get('valueString')` as a Python value (`None` when absent). -/
def pyGetValueString (f : DIField) : PyVal :=
  match f.valueString with
  | Option.none => PyVal.vnone
  | Option.some s => PyVal.vstr s

/-- `field.get('valueNumber')` as a Python value. -/
def pyGetValueNumber (f : DIField) : PyVal :=
  match f.valueNumber with
  | Option.none => PyVal.vnone
  | Option.some n => PyVal.vint n

/-- `field.get('value')` as a Python value. -/
def pyGetValue (f : DIField) : PyVal := (f.value).getD PyVal.vnone

/-- The or-chain `field.get('valueString') or field.get('valueNumber') or
field.get('value')` (extractor.py line 101, repeated verbatim on line 134
for person sub-fields). -/
def chainValue (f : DIField) : PyVal :=
  pyOr (pyGetValueString f) (pyOr (pyGetValueNumber f) (pyGetValue f))

/-- An entry of the flattened dictionary: the two-entry record
`{'value': ..., 'confidence': ...}`. -/
structure FieldRecord where
  value : PyVal
  confidence : PyVal

/-- A flattened per-document dictionary, in Python insertion order. -/
def FlatDict := List (String × FieldRecord)

/-- Python `d[k] = v`: overwrite in place when `k` is present, else
append the new binding. -/
def dictSet (d : List (String × FieldRecord)) (k : String) (v : FieldRecord) :
    List (String × FieldRecord) :=
  if d.any (fun p => p.1 = k) then
    d.map (fun p => if p.1 = k then (k, v) else p)
  else d ++ [(k, v)]

/-- Python `d.update(kvs)`: set each binding in order. -/
def dictUpdate (d : List (String × FieldRecord)) (kvs : List (String × FieldRecord)) :
    List (String × FieldRecord) :=
  kvs.foldl (fun acc p => dictSet acc p.1 p.2) d

/-- `extract_field_info` (lines 99-103). -/
def extract_field_info (field : DIField) (pfx : String) :
    List (String × FieldRecord) :=
  [(pfx, { value := chainValue field, confidence := field.confidence })]

/-- `extract_address_values` (lines 89-97) followed by the per-component
loop of lines 126-131: the five address entries, in source order, sharing
the sub-field's confidence. -/
def addressEntries (field_name : String) (a : AddressValue) (conf : PyVal) :
    List (String × FieldRecord) :=
  [ (field_name ++ "_Address_" ++ "house_number",
      { value := (a.house_number.map PyVal.vstr).getD PyVal.vnone, confidence := conf }),
    (field_name ++ "_Address_" ++ "road",
      { value := (a.road.map PyVal.vstr).getD PyVal.vnone, confidence := conf }),
    (field_name ++ "_Address_" ++ "city",
      { value := (a.city.map PyVal.vstr).getD PyVal.vnone, confidence := conf }),
    (field_name ++ "_Address_" ++ "state",
      { value := (a.state.map PyVal.vstr).getD PyVal.vnone, confidence := conf }),
    (field_name ++ "_Address_" ++ "postal_code",
      { value := (a.postal_code.map PyVal.vstr).getD PyVal.vnone, confidence := conf }) ]

/-- Lines 124-140 for a single person sub-field: the `Address` branch
reads `sub_field.get('valueAddress')` (attribute access on `None` raises);
any other sub-field gets the or-chained value with `sub_field.confidence`. -/
def processPersonSub (field_name sub_field_name : String) (sub_field : DIField) :
    Except PyErr (List (String × FieldRecord)) :=
  if sub_field_name = "Address" then
    match sub_field.valueAddress with
    | Option.none => .error .attributeError
    | Option.some a => .ok (addressEntries field_name a sub_field.confidence)
  else
    .ok [(field_name ++ "_" ++ sub_field_name,
          { value := chainValue sub_field, confidence := sub_field.confidence })]

/-- The `for sub_field_name, sub_field in person_data.items()` loop. -/
def processSubs (field_name : String) :
    List (String × DIField) → Except PyErr (List (String × FieldRecord))
  | [] => .ok []
  | (sn, sf) :: rest => do
    let e ← processPersonSub field_name sn sf
    let r ← processSubs field_name rest
    return e ++ r

/-- `extract_array_info` (lines 105-113): enumerate items, and for each
key of `item.get('valueObject', {})` add `extract_field_info` of the
value under `{prefix}_{idx+1}_{key}`. -/
def extract_array_info (array : List DIField) (pfx : String) :
    List (String × FieldRecord) :=
  array.enum.foldl
    (fun array_info p =>
      (p.2.valueObject.getD []).foldl
        (fun acc kv =>
          dictUpdate acc
            (extract_field_info kv.2 (pfx ++ "_" ++ toString (p.1 + 1) ++ "_" ++ kv.1)))
        array_info)
    []

def personFields : List String :=
  ["Employee", "Employer", "Borrower", "Lender", "Payer", "Recipient"]

def arrayFields : List String :=
  ["AdditionalInfo", "StateTaxInfos", "LocalTaxInfos", "StateTaxesWithheld"]

/-- The body of the `for field_name, field in result.fields.items()` loop
(lines 119-150) for one field: the entries it contributes to `w2_dict`.
The person branch calls `.items()` on `field.get('valueObject')`, which
raises on `None`; the array branch uses `.get('valueArray', [])`. -/
def processField (field_name : String) (field : DIField) :
    Except PyErr (List (String × FieldRecord)) :=
  if field_name ∈ personFields then
    match field.valueObject with
    | Option.none => .error .attributeError
    | Option.some person_data => processSubs field_name person_data
  else if field_name ∈ arrayFields then
    .ok (extract_array_info (field.valueArray.getD []) field_name)
  else
    .ok (extract_field_info field field_name)

/-- The field loop, threading `w2_dict` (person entries are single
assignments, the other branches are `w2_dict.update(...)`; both are
`dictUpdate` of the contributed entries in order). -/
def flattenFields : List (String × DIField) → List (String × FieldRecord) →
    Except PyErr (List (String × FieldRecord))
  | [], acc => .ok acc
  | (fn, f) :: rest, acc =>
    match processField fn f with
    | .error e => .error e
    | .ok part => flattenFields rest (dictUpdate acc part)

/-- One document's flattened dictionary (`w2_dict` at line 152). -/
def flattenDoc (doc : Document) : Except PyErr (List (String × FieldRecord)) :=
  flattenFields doc.fields []

/-- The document loop building `response_list` (lines 115-152). -/
def flattenDocs : List Document → Except PyErr (List (List (String × FieldRecord)))
  | [] => .ok []
  | d :: ds => do
    let w ← flattenDoc d
    let rest ← flattenDocs ds
    return w :: rest

/-! ## SAS token and `Extractor.extract` -/

/-- `BlobSasPermissions(read=True)`: only `read` is set; every other
permission keyword defaults to `False`. -/
structure BlobSasPermissions where
  read : Bool
  add : Bool
  create : Bool
  write : Bool
  delete : Bool
deriving DecidableEq

/-- The SAS token produced by `generate_blob_sas` (lines 69-76), recorded
with the arguments that determine it. -/
structure SasToken where
  account_name : String
  container_name : String
  blob_name : String
  account_key : String
  permission : BlobSasPermissions
  expiry : Nat
deriving DecidableEq

def generate_blob_sas (account_name container_name blob_name account_key : String)
    (permission : BlobSasPermissions) (expiry : Nat) : SasToken :=
  { account_name := account_name, container_name := container_name,
    blob_name := blob_name, account_key := account_key,
    permission := permission, expiry := expiry }

/-- The query-string rendering of a SAS token, as interpolated into
`blob_sas_url` on line 78 (the signature depends on the account key). -/
def SasToken.render (t : SasToken) : String :=
  "sp=" ++ (if t.permission.read then "r" else "") ++ "&se=" ++ toString t.expiry
    ++ "&sig=" ++ t.account_key

/-- External inputs of one `extract` call: `azure_credentials.KEY`, the
clock read by `datetime.datetime.utcnow()` (in seconds), the
`extractor_model_mapping` table, and the documents the analysis service
returns for the request. -/
structure AzureEnv where
  key : String
  now : Nat
  model_mapping : List (String × String)
  documents : List Document

/-- The observable outcome of one `extract` call: the SAS token it
generated, the two URLs it built, the model id and URL sent to
`begin_analyze_document`, and the value returned (or the exception
raised while flattening). -/
structure ExtractOutput where
  sas_token : SasToken
  blob_sas_url : String
  doc_url : String
  model_used : String
  analysis_url : String
  returned : Except PyErr (List (List (String × FieldRecord)) × String)

/-- `Extractor.extract` (lines 66-156).  `utcnow() + timedelta(hours=1)`
is `env.now + 3600` seconds.  Returns the post-call `self` (unchanged:
the method assigns no attribute) together with the effect trace. -/
def Extractor.extract (self : Extractor) (env : AzureEnv)
    (client_id blob_name form_type : String) : Extractor × ExtractOutput :=
  let blob_location := client_id ++ "/" ++ blob_name
  let sas_token := generate_blob_sas
    self.blob_service_client.account_name
    self.blob_container_client.container_name
    blob_location
    env.key
    { read := true, add := false, create := false, write := false, delete := false }
    (env.now + 3600)
  let blob_sas_url := "https://" ++ self.blob_service_client.account_name
    ++ ".blob.core.windows.net/" ++ self.blob_container_client.container_name
    ++ "/" ++ blob_location ++ "?" ++ sas_token.render
  let doc_url := "https://" ++ self.blob_service_client.account_name
    ++ ".blob.core.windows.net/" ++ self.blob_container_client.container_name
    ++ "/" ++ blob_location
  let model_used := ((env.model_mapping.find? (fun p => p.1 = form_type)).map
    (fun p => p.2)).getD "unsorted"
  let response_list := flattenDocs env.documents
  (self,
   { sas_token := sas_token, blob_sas_url := blob_sas_url, doc_url := doc_url,
     model_used := model_used, analysis_url := blob_sas_url,
     returned :=
       match response_list with
       | .error e => .error e
       | .ok l => .ok (l, doc_url) })

/-! ## Specification-side row description (for the claims about
`update_database`'s insert trace) -/

/-- Whether a `field_data` value can reach the insert without a
`KeyError`: a dict must carry both `'value'` and `'confidence'`. -/
def dictOk : PyVal → Bool
  | .vdict kvs => (dictGet kvs "value").isSome && (dictGet kvs "confidence").isSome
  | _ => true

/-- All `field_data` values of all dictionaries are `dictOk`. -/
def allDictOk (evs : List (List (String × PyVal))) : Bool :=
  evs.all (fun ev => ev.all (fun p => dictOk p.2))

/-- The row the claims say each `(field_name, field_data)` pair produces:
`str(field_data['value'])` / `field_data['confidence']` for a dict,
`str(field_data)` / `None` otherwise, with `doc_status = 'extracted'`. -/
def rowSpec (client_id blob_sas_url doc_name form_type access_id : String)
    (field_name : String) (field_data : PyVal) : Row :=
  match field_data with
  | .vdict kvs =>
    { client_id := client_id, doc_url := blob_sas_url, doc_name := doc_name,
      doc_status := "extracted", doc_type := form_type, field_name := field_name,
      field_value := PyVal.vstr (strOfPy ((dictGet kvs "value").getD PyVal.vnone)),
      confidence := (dictGet kvs "confidence").getD PyVal.vnone,
      access_id := access_id }
  | d =>
    { client_id := client_id, doc_url := blob_sas_url, doc_name := doc_name,
      doc_status := "extracted", doc_type := form_type, field_name := field_name,
      field_value := PyVal.vstr (strOfPy d), confidence := PyVal.vnone,
      access_id := access_id }

/-- All rows the loop would insert, one per pair, in order. -/
def rowsSpec (c u dn ft a : String) (evs : List (List (String × PyVal))) : List Row :=
  evs.foldr (fun ev acc => ev.map (fun p => rowSpec c u dn ft a p.1 p.2) ++ acc) []

/-! ## Helper lemmas about the insert loop -/

theorem mkRow_eq_rowSpec (c u dn ft a n : String) (d : PyVal) (h : dictOk d = true) :
    mkRow c u dn ft a n d = .ok (rowSpec c u dn ft a n d) := by
  cases d with
  | vdict kvs =>
    simp only [dictOk, Bool.and_eq_true, Option.isSome_iff_exists] at h
    obtain ⟨⟨v, hv⟩, cf, hc⟩ := h
    simp [mkRow, rowSpec, hv, hc, convertCustom, Bind.bind, Except.bind, Functor.map, Except.map, Pure.pure, Except.pure]
  | vnone => simp [mkRow, rowSpec, convertCustom, Bind.bind, Except.bind, Functor.map, Except.map, Pure.pure, Except.pure]
  | vstr s => simp [mkRow, rowSpec, convertCustom, Bind.bind, Except.bind, Functor.map, Except.map, Pure.pure, Except.pure]
  | vint n' => simp [mkRow, rowSpec, convertCustom, Bind.bind, Except.bind, Functor.map, Except.map, Pure.pure, Except.pure]
  | vlist xs => simp [mkRow, rowSpec, convertCustom, Bind.bind, Except.bind, Functor.map, Except.map, Pure.pure, Except.pure]

theorem takeWhile_append_all {α} (p : α → Bool) (xs ys : List α) (h : xs.all p = true) :
    (xs ++ ys).takeWhile p = xs ++ ys.takeWhile p := by
  induction xs with
  | nil => simp
  | cons x xs ih =>
    simp only [List.all_cons, Bool.and_eq_true] at h
    simp [List.takeWhile_cons, h.1, ih h.2]

theorem takeWhile_append_not_all {α} (p : α → Bool) (xs ys : List α) (h : xs.all p = false) :
    (xs ++ ys).takeWhile p = xs.takeWhile p := by
  induction xs with
  | nil => simp at h
  | cons x xs ih =>
    simp only [List.all_cons, Bool.and_eq_false_iff] at h
    rcases h with h | h
    · simp [List.takeWhile_cons, h]
    · cases hx : p x
      · simp [List.takeWhile_cons, hx]
      · simp [List.takeWhile_cons, hx, ih h]

theorem takeWhile_all {α} (p : α → Bool) (xs : List α) (h : xs.all p = true) :
    xs.takeWhile p = xs := by
  induction xs with
  | nil => simp
  | cons x xs ih =>
    simp only [List.all_cons, Bool.and_eq_true] at h
    simp [List.takeWhile_cons, h.1, ih h.2]

theorem tryFields_eq (ienv : InsertEnv) (c u dn ft a : String)
    (ev : List (String × PyVal)) (h : ev.all (fun q => dictOk q.2) = true) :
    tryFields ienv c u dn ft a ev =
      ((ev.map (fun q => rowSpec c u dn ft a q.1 q.2)).takeWhile ienv.ok,
       if (ev.map (fun q => rowSpec c u dn ft a q.1 q.2)).all ienv.ok then Option.none
       else Option.some PyErr.insertError) := by
  induction ev with
  | nil => simp [tryFields]
  | cons hd tl ih =>
    obtain ⟨n, d⟩ := hd
    simp only [List.all_cons, Bool.and_eq_true] at h
    rw [tryFields, mkRow_eq_rowSpec c u dn ft a n d h.1]
    cases hok : ienv.ok (rowSpec c u dn ft a n d) with
    | false => simp [List.takeWhile_cons, List.all_cons, hok]
    | true =>
      simp only [List.map_cons, List.takeWhile_cons, List.all_cons, hok, Bool.true_and,
        if_true, ih h.2]

theorem tryAll_eq (ienv : InsertEnv) (c u dn ft a : String)
    (evs : List (List (String × PyVal))) (h : allDictOk evs = true) :
    tryAll ienv c u dn ft a evs =
      ((rowsSpec c u dn ft a evs).takeWhile ienv.ok,
       if (rowsSpec c u dn ft a evs).all ienv.ok then Option.none
       else Option.some PyErr.insertError) := by
  induction evs with
  | nil => simp [tryAll, rowsSpec]
  | cons ev rest ih =>
    simp only [allDictOk, List.all_cons, Bool.and_eq_true] at h
    have hrw : rowsSpec c u dn ft a (ev :: rest)
        = ev.map (fun q => rowSpec c u dn ft a q.1 q.2) ++ rowsSpec c u dn ft a rest := rfl
    rw [tryAll, tryFields_eq ienv c u dn ft a ev h.1, hrw]
    cases hall : (ev.map (fun q => rowSpec c u dn ft a q.1 q.2)).all ienv.ok with
    | false =>
      rw [if_neg (by simp [hall])]
      rw [takeWhile_append_not_all _ _ _ hall, List.all_append, hall]
      simp
    | true =>
      rw [if_pos (by simp [hall]), takeWhile_all _ _ hall,
        takeWhile_append_all _ _ _ hall, List.all_append, hall,
        ih (by simpa [allDictOk] using h.2)]
      simp

theorem rowsSpec_length (c u dn ft a : String) (evs : List (List (String × PyVal))) :
    (rowsSpec c u dn ft a evs).length = (evs.map List.length).sum := by
  induction evs with
  | nil => rfl
  | cons ev rest ih =>
    have hrw : rowsSpec c u dn ft a (ev :: rest)
        = ev.map (fun q => rowSpec c u dn ft a q.1 q.2) ++ rowsSpec c u dn ft a rest := rfl
    rw [hrw, List.length_append, List.length_map, ih]
    simp

/-! ## Claim theorems about `update_database` -/

/-- Claim C3: when no insert raises (and every dict `field_data` carries
its `'value'` and `'confidence'` entries, so no lookup raises either),
`update_database` calls `post2postgres_extract` exactly once per
`(field_name, field_data)` pair of every dictionary, in order — one row
per field — and each row is `rowSpec`: `field_value = str(field_data['value'])`
with `confidence = field_data['confidence']` for a dict, else
`field_value = str(field_data)` with `confidence = None`, always with
`doc_status = 'extracted'` and the given identifiers. -/
theorem spec_C3_one_row_per_field (self : Extractor) (ienv : InsertEnv)
    (c u dn ft : String) (evs : List (List (String × PyVal))) (a : String)
    (hwf : allDictOk evs = true) (hok : ∀ r, ienv.ok r = true) :
    (Extractor.update_database self ienv c u dn ft evs a).2.inserted
        = rowsSpec c u dn ft a evs ∧
    (Extractor.update_database self ienv c u dn ft evs a).2.caught = false ∧
    (Extractor.update_database self ienv c u dn ft evs a).2.inserted.length
        = (evs.map List.length).sum := by
  have hall : (rowsSpec c u dn ft a evs).all ienv.ok = true := by
    simp [List.all_eq_true, hok]
  have h1 : (Extractor.update_database self ienv c u dn ft evs a).2.inserted
      = rowsSpec c u dn ft a evs := by
    simp [Extractor.update_database, tryAll_eq ienv c u dn ft a evs hwf,
      takeWhile_all _ _ hall]
  refine ⟨h1, ?_, ?_⟩
  · simp [Extractor.update_database, tryAll_eq ienv c u dn ft a evs hwf, hall]
  · rw [h1, rowsSpec_length]

theorem spec_C3_witness :
    allDictOk [[("Wages", PyVal.vdict [("value", PyVal.vstr "100"), ("confidence", PyVal.vint 1)])],
               [("Tips", PyVal.vstr "5")]] = true ∧
    (Extractor.update_database ⟨⟨"acct"⟩, ⟨"cont"⟩⟩ ⟨fun _ => true⟩ "c" "u" "d" "W-2"
        [[("Wages", PyVal.vdict [("value", PyVal.vstr "100"), ("confidence", PyVal.vint 1)])],
         [("Tips", PyVal.vstr "5")]] "i").2.inserted
      = rowsSpec "c" "u" "d" "W-2" "i"
        [[("Wages", PyVal.vdict [("value", PyVal.vstr "100"), ("confidence", PyVal.vint 1)])],
         [("Tips", PyVal.vstr "5")]] ∧
    (Extractor.update_database ⟨⟨"acct"⟩, ⟨"cont"⟩⟩ ⟨fun _ => true⟩ "c" "u" "d" "W-2"
        [[("Wages", PyVal.vdict [("value", PyVal.vstr "100"), ("confidence", PyVal.vint 1)])],
         [("Tips", PyVal.vstr "5")]] "i").2.inserted.length = 2 := by
  have h := spec_C3_one_row_per_field ⟨⟨"acct"⟩, ⟨"cont"⟩⟩ ⟨fun _ => true⟩ "c" "u" "d" "W-2"
    [[("Wages", PyVal.vdict [("value", PyVal.vstr "100"), ("confidence", PyVal.vint 1)])],
     [("Tips", PyVal.vstr "5")]] "i" (by decide) (fun r => rfl)
  exact ⟨by decide, h.1, by rw [h.2.2]; decide⟩

/-- Claim C4: `update_database` never propagates an exception (the broad
`except Exception` catches everything the loop raises and only logs), and
the `finally` awaits `database.close()` on every execution path. -/
theorem spec_C4_catch_and_close (self : Extractor) (ienv : InsertEnv)
    (c u dn ft : String) (evs : List (List (String × PyVal))) (a : String) :
    (Extractor.update_database self ienv c u dn ft evs a).2.propagated = false ∧
    (Extractor.update_database self ienv c u dn ft evs a).2.closed = true :=
  ⟨rfl, rfl⟩

/-- Claim C2 counterexample: two fields `"a"`, `"b"` in one dictionary,
where inserting `"a"` raises and inserting `"b"` would succeed.  The
exception is caught, but nothing at all is inserted: the remaining field
`"b"` is NOT processed and inserted, refuting the claim that the rest of
the dictionary is still processed after a failure. -/
theorem spec_C2_counterexample :
    (Extractor.update_database ⟨⟨"acct"⟩, ⟨"cont"⟩⟩ ⟨fun r => !(r.field_name = "a")⟩
        "c" "u" "d" "W-2" [[("a", PyVal.vstr "x"), ("b", PyVal.vstr "y")]] "i").2.caught = true
    ∧ (Extractor.update_database ⟨⟨"acct"⟩, ⟨"cont"⟩⟩ ⟨fun r => !(r.field_name = "a")⟩
        "c" "u" "d" "W-2" [[("a", PyVal.vstr "x"), ("b", PyVal.vstr "y")]] "i").2.inserted = []
    ∧ ¬ rowSpec "c" "u" "d" "W-2" "i" "b" (PyVal.vstr "y")
        ∈ (Extractor.update_database ⟨⟨"acct"⟩, ⟨"cont"⟩⟩ ⟨fun r => !(r.field_name = "a")⟩
            "c" "u" "d" "W-2" [[("a", PyVal.vstr "x"), ("b", PyVal.vstr "y")]] "i").2.inserted := by
  refine ⟨?_, ?_, ?_⟩ <;>
    simp [Extractor.update_database, tryAll, tryFields, mkRow, convertCustom, strOfPy,
      Bind.bind, Except.bind, Functor.map, Except.map, Pure.pure, Except.pure]

/-- Claim C2 (amended): when an insert raises, the catch-all logs the
failure and ABORTS the loop: the rows before the failing insert are the
only ones inserted (`takeWhile`), the failing field and every later field
and dictionary are not inserted; the exception does not propagate, and the
database is still closed. -/
theorem spec_C2_amended (self : Extractor) (ienv : InsertEnv)
    (c u dn ft : String) (evs : List (List (String × PyVal))) (a : String)
    (hwf : allDictOk evs = true) :
    (Extractor.update_database self ienv c u dn ft evs a).2.closed = true ∧
    (Extractor.update_database self ienv c u dn ft evs a).2.propagated = false ∧
    (Extractor.update_database self ienv c u dn ft evs a).2.inserted
        = (rowsSpec c u dn ft a evs).takeWhile ienv.ok ∧
    ((Extractor.update_database self ienv c u dn ft evs a).2.caught = true
        ↔ (rowsSpec c u dn ft a evs).all ienv.ok = false) := by
  refine ⟨rfl, rfl, ?_, ?_⟩
  · simp [Extractor.update_database, tryAll_eq ienv c u dn ft a evs hwf]
  · simp only [Extractor.update_database, tryAll_eq ienv c u dn ft a evs hwf]
    cases hall : (rowsSpec c u dn ft a evs).all ienv.ok <;> simp [hall]

theorem spec_C2_amended_witness :
    (Extractor.update_database ⟨⟨"acct"⟩, ⟨"cont"⟩⟩ ⟨fun r => !(r.field_name = "b")⟩
        "c" "u" "d" "W-2" [[("a", PyVal.vstr "x"), ("b", PyVal.vstr "y"), ("e", PyVal.vstr "z")]]
        "i").2.closed = true ∧
    (Extractor.update_database ⟨⟨"acct"⟩, ⟨"cont"⟩⟩ ⟨fun r => !(r.field_name = "b")⟩
        "c" "u" "d" "W-2" [[("a", PyVal.vstr "x"), ("b", PyVal.vstr "y"), ("e", PyVal.vstr "z")]]
        "i").2.propagated = false ∧
    (Extractor.update_database ⟨⟨"acct"⟩, ⟨"cont"⟩⟩ ⟨fun r => !(r.field_name = "b")⟩
        "c" "u" "d" "W-2" [[("a", PyVal.vstr "x"), ("b", PyVal.vstr "y"), ("e", PyVal.vstr "z")]]
        "i").2.inserted
      = (rowsSpec "c" "u" "d" "W-2" "i"
          [[("a", PyVal.vstr "x"), ("b", PyVal.vstr "y"), ("e", PyVal.vstr "z")]]).takeWhile
          (fun r => !(r.field_name = "b")) :=
  have h := spec_C2_amended ⟨⟨"acct"⟩, ⟨"cont"⟩⟩ ⟨fun r => !(r.field_name = "b")⟩
    "c" "u" "d" "W-2" [[("a", PyVal.vstr "x"), ("b", PyVal.vstr "y"), ("e", PyVal.vstr "z")]]
    "i" (by decide)
  ⟨h.1, h.2.1, h.2.2.1⟩

/-! ## Claim theorems about `extract` -/

/-- Claim C5: every `extract` call generates a SAS token whose permission
set is `BlobSasPermissions(read=True)` — read only, every other
permission false — and whose expiry is exactly one hour (3600 seconds)
after the `utcnow()` reading taken at generation time. -/
theorem spec_C5_sas_read_one_hour (self : Extractor) (env : AzureEnv)
    (client_id blob_name form_type : String) :
    (self.extract env client_id blob_name form_type).2.sas_token.permission
        = { read := true, add := false, create := false, write := false, delete := false } ∧
    (self.extract env client_id blob_name form_type).2.sas_token.expiry = env.now + 3600 :=
  ⟨rfl, rfl⟩

/-- Claim C7: neither `extract` nor `update_database` mutates the
`Extractor`: the object after each call is exactly the object before, so
the clients stored by `__init__` are unchanged and no per-request state
persists on the instance. -/
theorem spec_C7_no_mutation (self : Extractor) (env : AzureEnv)
    (client_id blob_name form_type : String) (ienv : InsertEnv)
    (c u dn ft : String) (evs : List (List (String × PyVal))) (a : String) :
    (self.extract env client_id blob_name form_type).1 = self ∧
    (Extractor.update_database self ienv c u dn ft evs a).1 = self :=
  ⟨rfl, rfl⟩

/-- Claim C9: the `isinstance(field_value, list)` branch of
`update_database` is dead code: by the time the check runs, `field_value`
was produced by `str(...)` on both branches, so it is a `str`, never a
`list`.  `mkRow` therefore either raises one of the two possible
`KeyError`s or yields a row whose `field_value` is the `str` of the
extracted value — it never takes the list-to-JSON branch (whose outcome
would be `attributeError`). -/
theorem spec_C9_list_branch_dead (c u dn ft a n : String) (d : PyVal) :
    mkRow c u dn ft a n d = .error (.keyError "value") ∨
    mkRow c u dn ft a n d = .error (.keyError "confidence") ∨
    ∃ r x, mkRow c u dn ft a n d = .ok r ∧ r.field_value = PyVal.vstr (strOfPy x) := by
  cases d with
  | vdict kvs =>
    cases hv : dictGet kvs "value" with
    | none => left; simp [mkRow, hv, Bind.bind, Except.bind]
    | some v =>
      cases hc : dictGet kvs "confidence" with
      | none => right; left; simp [mkRow, hv, hc, Bind.bind, Except.bind]
      | some cf =>
        right; right
        exact ⟨rowSpec c u dn ft a n (PyVal.vdict kvs),
          (dictGet kvs "value").getD PyVal.vnone,
          mkRow_eq_rowSpec c u dn ft a n _ (by simp [dictOk, hv, hc]), rfl⟩
  | vnone =>
    right; right
    exact ⟨rowSpec c u dn ft a n PyVal.vnone, PyVal.vnone,
      mkRow_eq_rowSpec c u dn ft a n _ rfl, rfl⟩
  | vstr str =>
    right; right
    exact ⟨rowSpec c u dn ft a n (PyVal.vstr str), PyVal.vstr str,
      mkRow_eq_rowSpec c u dn ft a n _ rfl, rfl⟩
  | vint m =>
    right; right
    exact ⟨rowSpec c u dn ft a n (PyVal.vint m), PyVal.vint m,
      mkRow_eq_rowSpec c u dn ft a n _ rfl, rfl⟩
  | vlist xs =>
    right; right
    exact ⟨rowSpec c u dn ft a n (PyVal.vlist xs), PyVal.vlist xs,
      mkRow_eq_rowSpec c u dn ft a n _ rfl, rfl⟩

/-- Claim C8: the value is chosen by Python truthiness or-chaining over
`valueString`, `valueNumber`, `value` — both in `extract_field_info` and
in the inline person sub-field extraction.  A `valueString` equal to `""`
is skipped in favour of the next key of the chain; when `valueString` is
falsy and `valueNumber` is `0`, that too is skipped and `value` (possibly
`None`) is returned. -/
theorem spec_C8_or_chain_truthiness (f : DIField) :
    (∀ pfx, extract_field_info f pfx
        = [(pfx, { value := chainValue f, confidence := f.confidence })]) ∧
    (∀ fn sn, ¬ sn = "Address" → processPersonSub fn sn f
        = .ok [(fn ++ "_" ++ sn, { value := chainValue f, confidence := f.confidence })]) ∧
    (f.valueString = Option.some "" →
        chainValue f = pyOr (pyGetValueNumber f) (pyGetValue f)) ∧
    (truthy (pyGetValueString f) = false → f.valueNumber = Option.some 0 →
        chainValue f = pyGetValue f) := by
  refine ⟨fun pfx => rfl, fun fn sn hsn => by simp [processPersonSub, hsn], ?_, ?_⟩
  · intro hvs
    simp [chainValue, pyGetValueString, hvs, pyOr, truthy]
  · intro hvs hvn
    simp only [chainValue, pyOr, hvs, Bool.false_eq_true, if_neg, if_false]
    simp [pyGetValueNumber, hvn, truthy]

theorem spec_C8_witness :
    extract_field_info
        (DIField.mk (Option.some "") (Option.some 0) (Option.some (PyVal.vstr "fb"))
          (PyVal.vint 9) Option.none Option.none Option.none) "Box1"
      = [("Box1",
          { value := chainValue (DIField.mk (Option.some "") (Option.some 0)
              (Option.some (PyVal.vstr "fb")) (PyVal.vint 9) Option.none Option.none Option.none),
            confidence := (DIField.mk (Option.some "") (Option.some 0)
              (Option.some (PyVal.vstr "fb")) (PyVal.vint 9) Option.none Option.none
              Option.none).confidence })] ∧
    chainValue (DIField.mk (Option.some "") (Option.some 0) (Option.some (PyVal.vstr "fb"))
        (PyVal.vint 9) Option.none Option.none Option.none)
      = pyOr (pyGetValueNumber (DIField.mk (Option.some "") (Option.some 0)
          (Option.some (PyVal.vstr "fb")) (PyVal.vint 9) Option.none Option.none Option.none))
        (pyGetValue (DIField.mk (Option.some "") (Option.some 0)
          (Option.some (PyVal.vstr "fb")) (PyVal.vint 9) Option.none Option.none Option.none)) ∧
    chainValue (DIField.mk (Option.some "") (Option.some 0) (Option.some (PyVal.vstr "fb"))
        (PyVal.vint 9) Option.none Option.none Option.none)
      = pyGetValue (DIField.mk (Option.some "") (Option.some 0) (Option.some (PyVal.vstr "fb"))
          (PyVal.vint 9) Option.none Option.none Option.none) ∧
    processPersonSub "Employee" "Name"
        (DIField.mk (Option.some "") (Option.some 0) (Option.some (PyVal.vstr "fb"))
          (PyVal.vint 9) Option.none Option.none Option.none)
      = .ok [("Employee" ++ "_" ++ "Name",
          { value := chainValue (DIField.mk (Option.some "") (Option.some 0)
              (Option.some (PyVal.vstr "fb")) (PyVal.vint 9) Option.none Option.none Option.none),
            confidence := (DIField.mk (Option.some "") (Option.some 0)
              (Option.some (PyVal.vstr "fb")) (PyVal.vint 9) Option.none Option.none
              Option.none).confidence })] :=
  have h := spec_C8_or_chain_truthiness
    (DIField.mk (Option.some "") (Option.some 0) (Option.some (PyVal.vstr "fb"))
      (PyVal.vint 9) Option.none Option.none Option.none)
  ⟨h.1 "Box1", h.2.2.1 rfl, h.2.2.2 (by decide) rfl,
    h.2.1 "Employee" "Name" (by decide)⟩

/-- Claim C10: the `doc_url` built by `extract` carries no SAS token —
it is independent of `azure_credentials.KEY` (two runs differing only in
the key build the same `doc_url`), it contains no `'?'` (no query string)
whenever the interpolated account, container, client id and blob name
contain none, the SAS-bearing URL is exactly the one sent to the analysis
request, and the URL returned to the caller is `doc_url`. -/
theorem spec_C10_doc_url_no_sas (self : Extractor) (env : AzureEnv)
    (k2 client_id blob_name form_type : String)
    (hacc : ¬ '?' ∈ self.blob_service_client.account_name.data)
    (hcont : ¬ '?' ∈ self.blob_container_client.container_name.data)
    (hcid : ¬ '?' ∈ client_id.data) (hbn : ¬ '?' ∈ blob_name.data) :
    (self.extract { env with key := k2 } client_id blob_name form_type).2.doc_url
        = (self.extract env client_id blob_name form_type).2.doc_url ∧
    ¬ '?' ∈ ((self.extract env client_id blob_name form_type).2.doc_url).data ∧
    (self.extract env client_id blob_name form_type).2.analysis_url
        = (self.extract env client_id blob_name form_type).2.blob_sas_url ∧
    (∀ l u, (self.extract env client_id blob_name form_type).2.returned = .ok (l, u)
        → u = (self.extract env client_id blob_name form_type).2.doc_url) := by
  refine ⟨rfl, ?_, rfl, ?_⟩
  · show ¬ '?' ∈ ("https://" ++ self.blob_service_client.account_name
      ++ ".blob.core.windows.net/" ++ self.blob_container_client.container_name
      ++ "/" ++ (client_id ++ "/" ++ blob_name)).data
    simp only [String.data_append, List.mem_append]
    intro h
    rcases h with ((((h | h) | h) | h) | h) | (h | h) | h
    · revert h; decide
    · exact hacc h
    · revert h; decide
    · exact hcont h
    · revert h; decide
    · exact hcid h
    · revert h; decide
    · exact hbn h
  · intro l u h
    show u = "https://" ++ self.blob_service_client.account_name
      ++ ".blob.core.windows.net/" ++ self.blob_container_client.container_name
      ++ "/" ++ (client_id ++ "/" ++ blob_name)
    revert h
    show (match flattenDocs env.documents with
        | .error e => (Except.error e :
            Except PyErr (List (List (String × FieldRecord)) × String))
        | .ok l2 => .ok (l2, "https://" ++ self.blob_service_client.account_name
            ++ ".blob.core.windows.net/" ++ self.blob_container_client.container_name
            ++ "/" ++ (client_id ++ "/" ++ blob_name))) = .ok (l, u) → _
    cases flattenDocs env.documents with
    | error e => intro h; exact absurd h (by simp)
    | ok L => intro h; simp only [Except.ok.injEq, Prod.mk.injEq] at h; exact h.2.symm

theorem spec_C10_witness :
    (Extractor.extract ⟨⟨"acct"⟩, ⟨"cont"⟩⟩
        { key := "KEY2", now := 7, model_mapping := [], documents := [] }
        "cid" "doc.pdf" "W-2").2.doc_url
      = (Extractor.extract ⟨⟨"acct"⟩, ⟨"cont"⟩⟩
        { key := "KEY1", now := 7, model_mapping := [], documents := [] }
        "cid" "doc.pdf" "W-2").2.doc_url ∧
    ¬ '?' ∈ ((Extractor.extract ⟨⟨"acct"⟩, ⟨"cont"⟩⟩
        { key := "KEY1", now := 7, model_mapping := [], documents := [] }
        "cid" "doc.pdf" "W-2").2.doc_url).data ∧
    (∀ l u, (Extractor.extract ⟨⟨"acct"⟩, ⟨"cont"⟩⟩
        { key := "KEY1", now := 7, model_mapping := [], documents := [] }
        "cid" "doc.pdf" "W-2").2.returned = .ok (l, u)
      → u = (Extractor.extract ⟨⟨"acct"⟩, ⟨"cont"⟩⟩
        { key := "KEY1", now := 7, model_mapping := [], documents := [] }
        "cid" "doc.pdf" "W-2").2.doc_url) :=
  have h := spec_C10_doc_url_no_sas ⟨⟨"acct"⟩, ⟨"cont"⟩⟩
    { key := "KEY1", now := 7, model_mapping := [], documents := [] }
    "KEY2" "cid" "doc.pdf" "W-2" (by decide) (by decide) (by decide) (by decide)
  ⟨h.1, h.2.1, h.2.2.2⟩

theorem flattenDocs_ok_length {ds : List Document}
    {l : List (List (String × FieldRecord))} (h : flattenDocs ds = .ok l) :
    l.length = ds.length ∧
    ∀ i (h1 : i < ds.length) (h2 : i < l.length),
      flattenDoc (ds.get ⟨i, h1⟩) = .ok (l.get ⟨i, h2⟩) := by
  induction ds generalizing l with
  | nil =>
    simp only [flattenDocs] at h
    cases h
    exact ⟨rfl, fun i h1 => absurd h1 (by simp)⟩
  | cons d ds ih =>
    rw [flattenDocs] at h
    cases hd : flattenDoc d with
    | error e => rw [hd] at h; exact absurd h (by simp [Bind.bind, Except.bind])
    | ok w =>
      rw [hd] at h
      cases hds : flattenDocs ds with
      | error e => rw [hds] at h; exact absurd h (by simp [Bind.bind, Except.bind])
      | ok rest =>
        rw [hds] at h
        simp only [Bind.bind, Except.bind, Pure.pure, Except.pure, Except.ok.injEq] at h
        subst h
        obtain ⟨hlen, hget⟩ := ih hds
        refine ⟨by simp [hlen], ?_⟩
        intro i h1 h2
        cases i with
        | zero => simpa using hd
        | succ j =>
          simp only [List.length_cons, Nat.succ_lt_succ_iff] at h1 h2
          simpa using hget j h1 (by omega)

/-- Claim C6: `extract` returns exactly one flattened dictionary per
document of the analysis result — the returned list has the same length
as `result.documents` — and position `i` of the returned list is the
flattening of document `i`, so order is preserved. -/
theorem spec_C6_one_dict_per_document (self : Extractor) (env : AzureEnv)
    (client_id blob_name form_type : String)
    (l : List (List (String × FieldRecord))) (u : String)
    (h : (self.extract env client_id blob_name form_type).2.returned = .ok (l, u)) :
    l.length = env.documents.length ∧
    ∀ i (h1 : i < env.documents.length) (h2 : i < l.length),
      flattenDoc (env.documents.get ⟨i, h1⟩) = .ok (l.get ⟨i, h2⟩) := by
  have hfd : flattenDocs env.documents = .ok l := by
    revert h
    show (match flattenDocs env.documents with
        | .error e => (Except.error e :
            Except PyErr (List (List (String × FieldRecord)) × String))
        | .ok l2 => .ok (l2, _)) = .ok (l, u) → _
    cases flattenDocs env.documents with
    | error e => intro h; exact absurd h (by simp)
    | ok L => intro h; simp only [Except.ok.injEq, Prod.mk.injEq] at h; rw [h.1]
  exact flattenDocs_ok_length hfd

theorem spec_C6_witness :
    (Extractor.extract ⟨⟨"acct"⟩, ⟨"cont"⟩⟩
        { key := "K", now := 0, model_mapping := [],
          documents := [⟨[("Wages", DIField.mk (Option.some "100") Option.none Option.none
            (PyVal.vint 1) Option.none Option.none Option.none)]⟩] }
        "cid" "doc.pdf" "W-2").2.returned
      = .ok ([[("Wages", { value := PyVal.vstr "100", confidence := PyVal.vint 1 })]],
             "https://acct.blob.core.windows.net/cont/cid/doc.pdf") ∧
    ([[("Wages", { value := PyVal.vstr "100", confidence := PyVal.vint 1 })]]
        : List (List (String × FieldRecord))).length
      = (AzureEnv.mk "K" 0 []
          [⟨[("Wages", DIField.mk (Option.some "100") Option.none Option.none
            (PyVal.vint 1) Option.none Option.none Option.none)]⟩]).documents.length :=
  have h := spec_C6_one_dict_per_document ⟨⟨"acct"⟩, ⟨"cont"⟩⟩
    (AzureEnv.mk "K" 0 []
      [⟨[("Wages", DIField.mk (Option.some "100") Option.none Option.none
        (PyVal.vint 1) Option.none Option.none Option.none)]⟩])
    "cid" "doc.pdf" "W-2"
    [[("Wages", { value := PyVal.vstr "100", confidence := PyVal.vint 1 })]]
    "https://acct.blob.core.windows.net/cont/cid/doc.pdf" rfl
  ⟨rfl, h.1⟩

/-! ## Membership lemmas for the flattened dictionary (claim C1) -/

theorem mem_dictSet {d : List (String × FieldRecord)} {k : String} {v : FieldRecord}
    {p : String × FieldRecord} (h : p ∈ dictSet d k v) : p ∈ d ∨ p = (k, v) := by
  unfold dictSet at h
  split at h
  · rcases List.mem_map.1 h with ⟨q, hq, he⟩
    by_cases hk : q.1 = k
    · right; rw [if_pos hk] at he; exact he.symm
    · left; rw [if_neg hk] at he; exact he ▸ hq
  · rcases List.mem_append.1 h with h | h
    · exact Or.inl h
    · right; simpa using h

theorem mem_dictUpdate {d kvs : List (String × FieldRecord)} {p : String × FieldRecord}
    (h : p ∈ dictUpdate d kvs) : p ∈ d ∨ p ∈ kvs := by
  induction kvs generalizing d with
  | nil => exact Or.inl h
  | cons q tl ih =>
    have h2 : p ∈ dictUpdate (dictSet d q.1 q.2) tl := h
    rcases ih h2 with h3 | h3
    · rcases mem_dictSet h3 with h4 | h4
      · exact Or.inl h4
      · right; rw [h4]; exact List.mem_cons_self _ _
    · exact Or.inr (List.mem_cons_of_mem _ h3)

theorem mem_foldl_dictUpdate {α : Type} (g : α → List (String × FieldRecord))
    {l : List α} {acc : List (String × FieldRecord)} {p : String × FieldRecord}
    (h : p ∈ l.foldl (fun a x => dictUpdate a (g x)) acc) :
    p ∈ acc ∨ ∃ x, x ∈ l ∧ p ∈ g x := by
  induction l generalizing acc with
  | nil => exact Or.inl h
  | cons x tl ih =>
    have h2 : p ∈ tl.foldl (fun a y => dictUpdate a (g y)) (dictUpdate acc (g x)) := h
    rcases ih h2 with h3 | ⟨y, hy, hp⟩
    · rcases mem_dictUpdate h3 with h4 | h4
      · exact Or.inl h4
      · exact Or.inr ⟨x, List.mem_cons_self _ _, h4⟩
    · exact Or.inr ⟨y, List.mem_cons_of_mem _ hy, hp⟩

theorem mem_enum_foldl {l : List (Nat × DIField)} {acc : List (String × FieldRecord)}
    {p : String × FieldRecord} (pfx : String)
    (h : p ∈ l.foldl (fun array_info q =>
      (q.2.valueObject.getD []).foldl
        (fun acc2 kv => dictUpdate acc2 (extract_field_info kv.2
          (pfx ++ "_" ++ toString (q.1 + 1) ++ "_" ++ kv.1))) array_info) acc) :
    p ∈ acc ∨ ∃ q, q ∈ l ∧ ∃ kv, kv ∈ q.2.valueObject.getD []
      ∧ p ∈ extract_field_info kv.2 (pfx ++ "_" ++ toString (q.1 + 1) ++ "_" ++ kv.1) := by
  induction l generalizing acc with
  | nil => exact Or.inl h
  | cons q tl ih =>
    have h2 : p ∈ tl.foldl (fun array_info r =>
        (r.2.valueObject.getD []).foldl
          (fun acc2 kv => dictUpdate acc2 (extract_field_info kv.2
            (pfx ++ "_" ++ toString (r.1 + 1) ++ "_" ++ kv.1))) array_info)
        ((q.2.valueObject.getD []).foldl
          (fun acc2 kv => dictUpdate acc2 (extract_field_info kv.2
            (pfx ++ "_" ++ toString (q.1 + 1) ++ "_" ++ kv.1))) acc) := h
    rcases ih h2 with h3 | ⟨r, hr, kv, hkv, hp⟩
    · rcases mem_foldl_dictUpdate _ h3 with h4 | ⟨kv, hkv, hp⟩
      · exact Or.inl h4
      · exact Or.inr ⟨q, List.mem_cons_self _ _, kv, hkv, hp⟩
    · exact Or.inr ⟨r, List.mem_cons_of_mem _ hr, kv, hkv, hp⟩

theorem mem_extract_array_info {arr : List DIField} {pfx : String}
    {p : String × FieldRecord} (h : p ∈ extract_array_info arr pfx) :
    ∃ i item, (i, item) ∈ arr.enum ∧ ∃ k v, (k, v) ∈ item.valueObject.getD []
      ∧ p ∈ extract_field_info v (pfx ++ "_" ++ toString (i + 1) ++ "_" ++ k) := by
  rcases mem_enum_foldl pfx h with h2 | ⟨q, hq, kv, hkv, hp⟩
  · simp at h2
  · exact ⟨q.1, q.2, hq, kv.1, kv.2, hkv, hp⟩

def addressComponentNames : List String :=
  ["house_number", "road", "city", "state", "postal_code"]

theorem mem_addressEntries {fn : String} {a : AddressValue} {conf : PyVal}
    {p : String × FieldRecord} (h : p ∈ addressEntries fn a conf) :
    ∃ comp, comp ∈ addressComponentNames ∧ p.1 = fn ++ "_Address_" ++ comp
      ∧ p.2.confidence = conf := by
  simp only [addressEntries, List.mem_cons, List.not_mem_nil, or_false] at h
  rcases h with h | h | h | h | h <;> subst h
  · exact ⟨"house_number", by simp [addressComponentNames], rfl, rfl⟩
  · exact ⟨"road", by simp [addressComponentNames], rfl, rfl⟩
  · exact ⟨"city", by simp [addressComponentNames], rfl, rfl⟩
  · exact ⟨"state", by simp [addressComponentNames], rfl, rfl⟩
  · exact ⟨"postal_code", by simp [addressComponentNames], rfl, rfl⟩

theorem mem_processPersonSub {fn sn : String} {sf : DIField}
    {part : List (String × FieldRecord)} {p : String × FieldRecord}
    (h : processPersonSub fn sn sf = .ok part) (hp : p ∈ part) :
    (¬ sn = "Address" ∧ p.1 = fn ++ "_" ++ sn
      ∧ p.2 = { value := chainValue sf, confidence := sf.confidence }) ∨
    (sn = "Address" ∧ ∃ comp, comp ∈ addressComponentNames
      ∧ p.1 = fn ++ "_Address_" ++ comp ∧ p.2.confidence = sf.confidence) := by
  by_cases hsn : sn = "Address"
  · subst hsn
    right
    refine ⟨rfl, ?_⟩
    unfold processPersonSub at h
    rw [if_pos rfl] at h
    cases hva : sf.valueAddress with
    | none => rw [hva] at h; exact absurd h (by simp)
    | some a =>
      rw [hva] at h
      injection h with h
      subst h
      exact mem_addressEntries hp
  · left
    unfold processPersonSub at h
    rw [if_neg hsn] at h
    injection h with h
    subst h
    simp only [List.mem_cons, List.not_mem_nil, or_false] at hp
    subst hp
    exact ⟨hsn, rfl, rfl⟩

theorem mem_processSubs {fn : String} {pd : List (String × DIField)}
    {out : List (String × FieldRecord)} {p : String × FieldRecord}
    (h : processSubs fn pd = .ok out) (hp : p ∈ out) :
    ∃ sn sf, (sn, sf) ∈ pd ∧ ∃ part, processPersonSub fn sn sf = .ok part ∧ p ∈ part := by
  induction pd generalizing out with
  | nil =>
    rw [processSubs] at h
    injection h with h
    subst h
    simp at hp
  | cons q tl ih =>
    obtain ⟨sn, sf⟩ := q
    rw [processSubs] at h
    cases he : processPersonSub fn sn sf with
    | error e => rw [he] at h; exact absurd h (by simp [Bind.bind, Except.bind])
    | ok e1 =>
      rw [he] at h
      cases hr : processSubs fn tl with
      | error e2 => rw [hr] at h; exact absurd h (by simp [Bind.bind, Except.bind])
      | ok r1 =>
        rw [hr] at h
        simp only [Bind.bind, Except.bind, Pure.pure, Except.pure, Except.ok.injEq] at h
        subst h
        rcases List.mem_append.1 hp with hp2 | hp2
        · exact ⟨sn, sf, List.mem_cons_self _ _, e1, he, hp2⟩
        · obtain ⟨sn2, sf2, hmem, part, hpp, hp3⟩ := ih hr hp2
          exact ⟨sn2, sf2, List.mem_cons_of_mem _ hmem, part, hpp, hp3⟩

/-- The key/record shapes claim C1 describes for one field's contribution:
plain fields via `extract_field_info` under the field name; person fields
under `<field>_<subfield>` and `<field>_Address_<component>`; array fields
under `<field>_<i+1>_<key>` with the enumeration starting at 0 (so the
rendered index starts at 1). -/
def keyShape (fn : String) (f : DIField) (p : String × FieldRecord) : Prop :=
  (¬ fn ∈ personFields ∧ ¬ fn ∈ arrayFields ∧ p ∈ extract_field_info f fn) ∨
  (fn ∈ personFields ∧ ∃ pd, f.valueObject = Option.some pd ∧ ∃ sn sf, (sn, sf) ∈ pd ∧
    ((¬ sn = "Address" ∧ p.1 = fn ++ "_" ++ sn
        ∧ p.2 = { value := chainValue sf, confidence := sf.confidence }) ∨
     (sn = "Address" ∧ ∃ comp, comp ∈ addressComponentNames
        ∧ p.1 = fn ++ "_Address_" ++ comp ∧ p.2.confidence = sf.confidence))) ∨
  (fn ∈ arrayFields ∧ ∃ i item, (i, item) ∈ (f.valueArray.getD []).enum
    ∧ ∃ k v, (k, v) ∈ item.valueObject.getD []
    ∧ p ∈ extract_field_info v (fn ++ "_" ++ toString (i + 1) ++ "_" ++ k))

theorem keyShape_of_processField {fn : String} {f : DIField}
    {part : List (String × FieldRecord)} {p : String × FieldRecord}
    (h : processField fn f = .ok part) (hp : p ∈ part) : keyShape fn f p := by
  unfold processField at h
  by_cases h1 : fn ∈ personFields
  · rw [if_pos h1] at h
    cases hvo : f.valueObject with
    | none => rw [hvo] at h; exact absurd h (by simp)
    | some pd =>
      rw [hvo] at h
      obtain ⟨sn, sf, hmem, part2, hpp, hp2⟩ := mem_processSubs h hp
      exact Or.inr (Or.inl ⟨h1, pd, hvo, sn, sf, hmem, mem_processPersonSub hpp hp2⟩)
  · rw [if_neg h1] at h
    by_cases h2 : fn ∈ arrayFields
    · rw [if_pos h2] at h
      injection h with h
      subst h
      obtain ⟨i, item, hi, k, v, hkv, hp2⟩ := mem_extract_array_info hp
      exact Or.inr (Or.inr ⟨h2, i, item, hi, k, v, hkv, hp2⟩)
    · rw [if_neg h2] at h
      injection h with h
      subst h
      exact Or.inl ⟨h1, h2, hp⟩

theorem mem_flattenFields {fields : List (String × DIField)}
    {acc out : List (String × FieldRecord)} {p : String × FieldRecord}
    (h : flattenFields fields acc = .ok out) (hp : p ∈ out) :
    p ∈ acc ∨ ∃ fn f, (fn, f) ∈ fields ∧ ∃ part, processField fn f = .ok part ∧ p ∈ part := by
  induction fields generalizing acc with
  | nil =>
    rw [flattenFields] at h
    injection h with h
    subst h
    exact Or.inl hp
  | cons q tl ih =>
    obtain ⟨fn, f⟩ := q
    rw [flattenFields] at h
    cases hpf : processField fn f with
    | error e => rw [hpf] at h; exact absurd h (by simp)
    | ok part =>
      rw [hpf] at h
      rcases ih h with h2 | ⟨fn2, f2, hmem, part2, hpp, hp2⟩
      · rcases mem_dictUpdate h2 with h3 | h3
        · exact Or.inl h3
        · exact Or.inr ⟨fn, f, List.mem_cons_self _ _, part, hpf, h3⟩
      · exact Or.inr ⟨fn2, f2, List.mem_cons_of_mem _ hmem, part2, hpp, hp2⟩

/-- Claim C1: for every document the service returned, every entry of the
flat dictionary `extract` produces is a two-entry `{'value', 'confidence'}`
record (the type `FieldRecord`), and its key comes from some field of the
document in the shape `keyShape` describes: the field name itself for
plain fields (via `extract_field_info`), `<field>_<subfield>` and
`<field>_Address_<component>` for person fields, and `<field>_<i>_<key>`
with `i` starting at 1 for array fields. -/
theorem spec_C1_flat_dict_shape {doc : Document} {w2 : List (String × FieldRecord)}
    {p : String × FieldRecord} (h : flattenDoc doc = .ok w2) (hp : p ∈ w2) :
    ∃ fn f, (fn, f) ∈ doc.fields ∧ keyShape fn f p := by
  rcases mem_flattenFields h hp with h2 | ⟨fn, f, hmem, part, hpf, hp2⟩
  · simp at h2
  · exact ⟨fn, f, hmem, keyShape_of_processField hpf hp2⟩

/-- Concrete document for the claim C1 witness: a person field with a
plain sub-field and an `Address`, an array field with one item, and a
plain field. -/
def docC1 : Document :=
  ⟨[("Employee", DIField.mk Option.none Option.none Option.none (PyVal.vint 2)
      (Option.some
        [("SSN", DIField.mk (Option.some "123") Option.none Option.none (PyVal.vint 3)
            Option.none Option.none Option.none),
         ("Address", DIField.mk Option.none Option.none Option.none (PyVal.vint 4)
            Option.none Option.none
            (Option.some ⟨Option.some "1", Option.some "Main St", Option.some "Springfield",
              Option.some "IL", Option.some "62704"⟩))])
      Option.none Option.none),
    ("StateTaxInfos", DIField.mk Option.none Option.none Option.none (PyVal.vint 5)
      Option.none
      (Option.some [DIField.mk Option.none Option.none Option.none (PyVal.vint 6)
        (Option.some [("State", DIField.mk (Option.some "IL") Option.none Option.none
          (PyVal.vint 7) Option.none Option.none Option.none)]) Option.none Option.none])
      Option.none),
    ("Wages", DIField.mk (Option.some "100") Option.none Option.none (PyVal.vint 1)
      Option.none Option.none Option.none)]⟩

/-- The flat dictionary `extract` builds for `docC1`. -/
def w2C1 : List (String × FieldRecord) :=
  [("Employee_SSN", { value := PyVal.vstr "123", confidence := PyVal.vint 3 }),
   ("Employee_Address_house_number", { value := PyVal.vstr "1", confidence := PyVal.vint 4 }),
   ("Employee_Address_road", { value := PyVal.vstr "Main St", confidence := PyVal.vint 4 }),
   ("Employee_Address_city", { value := PyVal.vstr "Springfield", confidence := PyVal.vint 4 }),
   ("Employee_Address_state", { value := PyVal.vstr "IL", confidence := PyVal.vint 4 }),
   ("Employee_Address_postal_code", { value := PyVal.vstr "62704", confidence := PyVal.vint 4 }),
   ("StateTaxInfos_1_State", { value := PyVal.vstr "IL", confidence := PyVal.vint 7 }),
   ("Wages", { value := PyVal.vstr "100", confidence := PyVal.vint 1 })]

theorem spec_C1_witness :
    flattenDoc docC1 = .ok w2C1 ∧
    (∃ fn f, (fn, f) ∈ docC1.fields ∧ keyShape fn f
      ("Wages", { value := PyVal.vstr "100", confidence := PyVal.vint 1 })) ∧
    (∃ fn f, (fn, f) ∈ docC1.fields ∧ keyShape fn f
      ("Employee_Address_city",
        { value := PyVal.vstr "Springfield", confidence := PyVal.vint 4 })) ∧
    (∃ fn f, (fn, f) ∈ docC1.fields ∧ keyShape fn f
      ("StateTaxInfos_1_State", { value := PyVal.vstr "IL", confidence := PyVal.vint 7 })) :=
  ⟨rfl,
   @spec_C1_flat_dict_shape docC1 w2C1 _ rfl (by simp [w2C1]),
   @spec_C1_flat_dict_shape docC1 w2C1 _ rfl (by simp [w2C1]),
   @spec_C1_flat_dict_shape docC1 w2C1 _ rfl (by simp [w2C1])⟩
